import Mathlib

/-!
Verification of the DCF77 emulator core (src/src/main.cpp of
Bruce17/esp-dcf77-emulator) against its natural-language specification.

The pulse buffer `int pulseArray[183]` is modelled as a total function
`Int → Int` (0 = no pulse, 1 = 100 ms short pulse, 2 = 200 ms long pulse);
array stores become `Function.update`.  C `int` arithmetic on the values
involved never overflows 32 bits, so plain `Int` is used; C's `>> 1` on a
(possibly negative) two's-complement int is floor division, i.e. `Int.ediv`
(`/` on `Int`), and `& 1` is `Int.emod _ 2` (`% 2`).
-/

namespace DCF77

/-- Broken-down calendar time, the shape of libc `struct tm` as the emulator
uses it.  Per the spec's external interface the time source supplies
`{year, month(1-12), day(1-31), hour(0-23), minute(0-59), second(0-59),
weekday, isDST}`, so `tm_mon` carries the 1-12 month and `tm_year` the full
calendar year.  `tm_yday` is never read by the core and is omitted. -/
structure Tm where
  tm_sec : Int
  tm_min : Int
  tm_hour : Int
  tm_mday : Int
  tm_mon : Int
  tm_year : Int
  tm_wday : Int
  tm_isdst : Int

deriving instance DecidableEq for Tm

/-- Total number of pulse slots: three complete minutes plus 2 head pulses
and one tail pulse (`#define MaxPulseNumber 183`). -/
def MaxPulseNumber : Int := 183

/-- Slot offset of the first minute-frame (`#define FirstMinutePulseBegin 2`). -/
def FirstMinutePulseBegin : Int := 2

/-- Slot offset of the second minute-frame (`#define SecondMinutePulseBegin 62`). -/
def SecondMinutePulseBegin : Int := 62

/-- Slot offset of the third minute-frame (`#define ThirdMinutePulseBegin 122`). -/
def ThirdMinutePulseBegin : Int := 122

/-- Translation of `int bin2Bcd(int dato)` from src/src/main.cpp lines
377-387: values below 10 are returned unchanged, otherwise the tens digit
is shifted into the high nibble (`(dato / 10) << 4`) and added to the units
digit (`dato % 10`). -/
def bin2Bcd (dato : Int) : Int :=
  if dato < 10 then dato
  else (dato / 10) * 16 + dato % 10

/-- The constant-fill loop of `calculateArray`
(`for (n = 0; n < 20; n++) pulseArray[n + ArrayOffset] = 1`), as a fold:
`writeConst a cnt v arr` assigns `v` to slots `a, a+1, ..., a+cnt-1`. -/
def writeConst (a : Int) (cnt : Nat) (v : Int) (arr : Int → Int) : Int → Int :=
  match cnt with
  | 0 => arr
  | Nat.succ k => writeConst (a + 1) k v (Function.update arr a v)

/-- The repeated bit-emitting loop of `calculateArray`:
`Tmp = TmpIn & 1; pulseArray[n + ArrayOffset] = Tmp + 1;
ParityCount += Tmp; TmpIn >>= 1;` for `cnt` iterations starting at absolute
slot `a`.  Returns the written array together with the final `ParityCount`. -/
def writeBits (a : Int) (cnt : Nat) (tmpIn : Int) (arr : Int → Int) (parity : Int) :
    (Int → Int) × Int :=
  match cnt with
  | 0 => (arr, parity)
  | Nat.succ k =>
      writeBits (a + 1) k (tmpIn / 2)
        (Function.update arr a (tmpIn % 2 + 1)) (parity + tmpIn % 2)

/-- Translation of `void calculateArray(int ArrayOffset, tm *timeinfo)`
(src/src/main.cpp lines 389-487), acting on the pulse array it receives and
returning the updated array.  Stage order and slot indices follow the
source: 20 fixed short pulses, the DST bit (slot 17 if `tm_isdst == 1`,
else slot 18), the start bit at 20, then minutes (21-27 plus parity 28),
hours (29-34 plus parity 35), day (36-41), weekday (42-44), month (45-49),
year (50-57) sharing one date parity counter written at 58, and the missing
59th pulse. -/
def calculateArray (ArrayOffset : Int) (timeinfo : Tm) (pulseArray : Int → Int) :
    Int → Int :=
  let a1 := writeConst ArrayOffset 20 1 pulseArray
  let a2 := if timeinfo.tm_isdst = 1 then Function.update a1 (17 + ArrayOffset) 2
            else Function.update a1 (18 + ArrayOffset) 2
  let a3 := Function.update a2 (20 + ArrayOffset) 2
  let w1 := writeBits (21 + ArrayOffset) 7 (bin2Bcd timeinfo.tm_min) a3 0
  let a4 := Function.update w1.1 (28 + ArrayOffset) (if w1.2 % 2 = 0 then 1 else 2)
  let w2 := writeBits (29 + ArrayOffset) 6 (bin2Bcd timeinfo.tm_hour) a4 0
  let a5 := Function.update w2.1 (35 + ArrayOffset) (if w2.2 % 2 = 0 then 1 else 2)
  let w3 := writeBits (36 + ArrayOffset) 6 (bin2Bcd timeinfo.tm_mday) a5 0
  let w4 := writeBits (42 + ArrayOffset) 3 (bin2Bcd timeinfo.tm_wday) w3.1 w3.2
  let w5 := writeBits (45 + ArrayOffset) 5 (bin2Bcd timeinfo.tm_mon) w4.1 w4.2
  let w6 := writeBits (50 + ArrayOffset) 8 (bin2Bcd (timeinfo.tm_year - 2000)) w5.1 w5.2
  let a6 := Function.update w6.1 (58 + ArrayOffset) (if w6.2 % 2 = 0 then 1 else 2)
  Function.update a6 (59 + ArrayOffset) 0

/-- Gregorian leap-year rule, part of the calendar model behind libc
`mktime`. -/
def isLeap (y : Int) : Bool :=
  (y % 4 == 0 && y % 100 != 0) || y % 400 == 0

/-- Length of a calendar month (month given 1-12). -/
def daysInMonth (y m : Int) : Int :=
  if m = 2 then (if isLeap y then 29 else 28)
  else if m = 4 ∨ m = 6 ∨ m = 9 ∨ m = 11 then 30
  else 31

/-- Day-overflow normalization loop of the calendar model: while the day
exceeds the month length, subtract the month length and advance the month
(rolling December into the next year).  Fuel-bounded to stay total. -/
def normDays (fuel : Nat) (y m d : Int) : Int × Int × Int :=
  match fuel with
  | 0 => (y, m, d)
  | Nat.succ f =>
      if d > daysInMonth y m then
        if m = 12 then normDays f (y + 1) 1 (d - daysInMonth y m)
        else normDays f y (m + 1) (d - daysInMonth y m)
      else (y, m, d)

/-- Modelled from the spec: the repository calls libc `mktime` (not part of
src/) to re-normalize a broken-down time after adding seconds or minutes;
per the spec the composer advances the snapshot "normalizing calendar
fields (e.g., hour/day rollover) each time".  Carries excess seconds into
minutes, minutes into hours, hours into days, normalizes the month, and
rolls excess days through month lengths.  The weekday and DST fields are
carried through unchanged (the spec does not constrain their
renormalization and no claim depends on it). -/
def mkTimeNorm (t : Tm) : Tm :=
  let min1 := t.tm_min + t.tm_sec / 60
  let hour1 := t.tm_hour + min1 / 60
  let day1 := t.tm_mday + hour1 / 24
  let year1 := t.tm_year + (t.tm_mon - 1) / 12
  let mon1 := (t.tm_mon - 1) % 12 + 1
  let ymd := normDays 960 year1 mon1 day1
  { tm_sec := t.tm_sec % 60, tm_min := min1 % 60, tm_hour := hour1 % 24,
    tm_mday := ymd.2.2, tm_mon := ymd.2.1, tm_year := ymd.1,
    tm_wday := t.tm_wday, tm_isdst := t.tm_isdst }

/-- Translation of `void readAndDecodeTime()` (src/src/main.cpp lines
489-541).  The wall-clock read `localtime` is outside src/; the function is
therefore parametrized by the time it reads, `t0`, plus the configured
`timeCorrectionOffset` added to `tm_sec` before `mktime` re-normalizes.
If the corrected second exceeds 56 the cycle is skipped and the pulse array
is untouched (`none`).  Otherwise the three minute-frames are computed at
offsets 2, 62 and 122, advancing the time by one minute (plus `mktime`)
between frames, and the result carries `some SkipSeconds` with
`SkipSeconds = 58 - tm_sec`, the alignment delay slept before setting
`dcfOutputOn = 1`. -/
def readAndDecodeTime (timeCorrectionOffset : Int) (t0 : Tm) (pulseArray : Int → Int) :
    (Int → Int) × Option Int :=
  let timeinfo := mkTimeNorm { t0 with tm_sec := t0.tm_sec + timeCorrectionOffset }
  if timeinfo.tm_sec > 56 then (pulseArray, none)
  else
    let a1 := calculateArray FirstMinutePulseBegin timeinfo pulseArray
    let t2 := mkTimeNorm { timeinfo with tm_min := timeinfo.tm_min + 1 }
    let a2 := calculateArray SecondMinutePulseBegin t2 a1
    let t3 := mkTimeNorm { t2 with tm_min := t2.tm_min + 1 }
    let a3 := calculateArray ThirdMinutePulseBegin t3 a2
    (a3, some (58 - t3.tm_sec))

/-- Array part of `void setupDcf()` (src/src/main.cpp lines 543-562): the
two head pulses `pulseArray[0] = 1; pulseArray[1] = 0;` and the tail pulse
`pulseArray[MaxPulseNumber - 1] = 1`.  Pin setup and timer attachment are
hardware effects outside the model. -/
def setupDcf (pulseArray : Int → Int) : Int → Int :=
  Function.update (Function.update (Function.update pulseArray 0 1) 1 0)
    (MaxPulseNumber - 1) 1

/-- Emitter state: the three global counters of the source plus the level
last driven on the output pin. -/
structure DcfState where
  pulseCount : Int
  partialpulseCount : Int
  dcfOutputOn : Int
  out : Int

deriving instance DecidableEq for DcfState

/-- Translation of `void dcfOut()` (src/src/main.cpp lines 346-375), the
100 ms tick handler.  `switch (partialpulseCount++)` compares the old value
and increments in every case; case 9 advances `pulseCount` (resetting to 0
and clearing `dcfOutputOn` when the old value was `MaxPulseNumber - 1`)
and resets `partialpulseCount` to 0. -/
def dcfOut (pulseArray : Int → Int) (s : DcfState) : DcfState :=
  if s.dcfOutputOn = 1 then
    let ppc := s.partialpulseCount
    let s1 : DcfState := { s with partialpulseCount := ppc + 1 }
    if ppc = 0 then
      (if pulseArray s1.pulseCount ≠ 0 then { s1 with out := 0 } else s1)
    else if ppc = 1 then
      (if pulseArray s1.pulseCount = 1 then { s1 with out := 1 } else s1)
    else if ppc = 2 then { s1 with out := 1 }
    else if ppc = 9 then
      let s2 : DcfState :=
        if s1.pulseCount = MaxPulseNumber - 1 then
          { s1 with pulseCount := 0, dcfOutputOn := 0 }
        else { s1 with pulseCount := s1.pulseCount + 1 }
      { s2 with partialpulseCount := 0 }
    else s1
  else s

/-- Iterated ticks of the emitter. -/
def dcfRun (pulseArray : Int → Int) (s : DcfState) : Nat → DcfState
  | 0 => s
  | Nat.succ k => dcfOut pulseArray (dcfRun pulseArray s k)

/-- BCD decoding of a packed nibble pair: tens nibble high, units nibble
low (property-side definition used to state round-trip claims). -/
def bcdDecode (x : Int) : Int := (x / 16) * 10 + x % 16

/-- Numeric value carried by `cnt` consecutive pulse slots starting at `a`,
LSB first, reading `Short` (1) as bit 0 and `Long` (2) as bit 1. -/
def sliceVal (arr : Int → Int) (a : Int) (cnt : Nat) : Int :=
  match cnt with
  | 0 => 0
  | Nat.succ k => (arr a - 1) + 2 * sliceVal arr (a + 1) k

/-- Popcount of `cnt` consecutive pulse slots starting at `a` (sum of the
bits encoded as `Short`/`Long`). -/
def sliceSum (arr : Int → Int) (a : Int) (cnt : Nat) : Int :=
  match cnt with
  | 0 => 0
  | Nat.succ k => (arr a - 1) + sliceSum arr (a + 1) k

/-- The low `cnt` bits of an integer recombined LSB first, mirroring the
shift loop of `calculateArray`. -/
def lowBits (cnt : Nat) (x : Int) : Int :=
  match cnt with
  | 0 => 0
  | Nat.succ k => x % 2 + 2 * lowBits k (x / 2)

/-- Sum of the low `cnt` bits of an integer, mirroring the `ParityCount`
accumulation of `calculateArray`. -/
def bitSum (cnt : Nat) (x : Int) : Int :=
  match cnt with
  | 0 => 0
  | Nat.succ k => x % 2 + bitSum k (x / 2)

/-- Bit `k` of an integer, as extracted by `k` halvings. -/
def bitAt (x : Int) : Nat → Int
  | 0 => x % 2
  | Nat.succ k => bitAt (x / 2) k

/-- Calendar snapshot with every field the core reads inside its normal
range (weekday and DST are unconstrained: no normalization claim uses
them). -/
def inRange (t : Tm) : Prop :=
  0 ≤ t.tm_sec ∧ t.tm_sec ≤ 59 ∧ 0 ≤ t.tm_min ∧ t.tm_min ≤ 59 ∧
  0 ≤ t.tm_hour ∧ t.tm_hour ≤ 23 ∧ 1 ≤ t.tm_mday ∧
  t.tm_mday ≤ daysInMonth t.tm_year t.tm_mon ∧ 1 ≤ t.tm_mon ∧ t.tm_mon ≤ 12

instance (t : Tm) : Decidable (inRange t) := by
  unfold inRange; infer_instance

/-- The claim's notion of a correctly re-normalized calendar increment by
one minute: minute 59 rolls to 0 with the hour advancing, hour 23 rolls to
0 with the day advancing, the last day of a month rolls to day 1 of the
next month, and December 31 rolls into January 1 of the next year. -/
def addOneMinuteSpec (t : Tm) : Tm :=
  if t.tm_min < 59 then { t with tm_min := t.tm_min + 1 }
  else if t.tm_hour < 23 then { t with tm_min := 0, tm_hour := t.tm_hour + 1 }
  else if t.tm_mday < daysInMonth t.tm_year t.tm_mon then
    { t with tm_min := 0, tm_hour := 0, tm_mday := t.tm_mday + 1 }
  else if t.tm_mon < 12 then
    { t with tm_min := 0, tm_hour := 0, tm_mday := 1, tm_mon := t.tm_mon + 1 }
  else
    { t with tm_min := 0, tm_hour := 0, tm_mday := 1, tm_mon := 1,
             tm_year := t.tm_year + 1 }

/-- Modelled from the spec: the BCD encoder contract the spec describes,
where an out-of-range input (negative or above 99) is a contract violation
that fails fast; the abort is represented by `none`. -/
def bin2BcdSpec (dato : Int) : Option Int :=
  if dato < 0 ∨ 99 < dato then none
  else some ((dato / 10) * 16 + dato % 10)

/-! ### Basic lemmas about the write loops -/

theorem writeConst_out (a : Int) (cnt : Nat) (v : Int) (arr : Int → Int) (j : Int)
    (h : j < a ∨ a + cnt ≤ j) : writeConst a cnt v arr j = arr j := by
  induction cnt generalizing a arr with
  | zero => rfl
  | succ k ih =>
      show writeConst (a + 1) k v (Function.update arr a v) j = arr j
      rw [ih (a + 1) (Function.update arr a v) (by push_cast at h ⊢; omega)]
      have hne : j ≠ a := by push_cast at h; omega
      exact Function.update_noteq hne v arr

theorem writeConst_in (a : Int) (cnt : Nat) (v : Int) (arr : Int → Int) (j : Int)
    (h1 : a ≤ j) (h2 : j < a + cnt) : writeConst a cnt v arr j = v := by
  induction cnt generalizing a arr with
  | zero => push_cast at h2; omega
  | succ k ih =>
      show writeConst (a + 1) k v (Function.update arr a v) j = v
      by_cases hj : j = a
      · rw [hj, writeConst_out (a + 1) k v (Function.update arr a v) a (by omega)]
        exact Function.update_same a v arr
      · exact ih (a + 1) (Function.update arr a v) (by omega) (by push_cast at h2 ⊢; omega)

theorem writeBits_fst_out (a : Int) (cnt : Nat) (x : Int) (arr : Int → Int) (p : Int)
    (j : Int) (h : j < a ∨ a + cnt ≤ j) : (writeBits a cnt x arr p).1 j = arr j := by
  induction cnt generalizing a x arr p with
  | zero => rfl
  | succ k ih =>
      show (writeBits (a + 1) k (x / 2) (Function.update arr a (x % 2 + 1))
        (p + x % 2)).1 j = arr j
      rw [ih (a + 1) (x / 2) _ _ (by push_cast at h ⊢; omega)]
      have hne : j ≠ a := by push_cast at h; omega
      exact Function.update_noteq hne _ arr

theorem writeBits_fst_in (a : Int) (cnt : Nat) (x : Int) (arr : Int → Int) (p : Int)
    (k : Nat) (hk : k < cnt) :
    (writeBits a cnt x arr p).1 (a + k) = bitAt x k + 1 := by
  induction cnt generalizing a x arr p k with
  | zero => omega
  | succ c ih =>
      show (writeBits (a + 1) c (x / 2) (Function.update arr a (x % 2 + 1))
        (p + x % 2)).1 (a + k) = bitAt x k + 1
      cases k with
      | zero =>
          rw [writeBits_fst_out (a + 1) c (x / 2) _ _ _ (by push_cast; omega)]
          push_cast
          rw [add_zero]
          rw [Function.update_same]
          rfl
      | succ k1 =>
          have e : a + ((k1 + 1 : Nat) : Int) = (a + 1) + (k1 : Int) := by push_cast; omega
          rw [e, ih (a + 1) (x / 2) _ _ k1 (by omega)]
          rfl

theorem writeBits_snd (a : Int) (cnt : Nat) (x : Int) (arr : Int → Int) (p : Int) :
    (writeBits a cnt x arr p).2 = p + bitSum cnt x := by
  induction cnt generalizing a x arr p with
  | zero => show p = p + 0; omega
  | succ k ih =>
      show (writeBits (a + 1) k (x / 2) (Function.update arr a (x % 2 + 1))
        (p + x % 2)).2 = p + bitSum (k + 1) x
      rw [ih]
      show p + x % 2 + bitSum k (x / 2) = p + (x % 2 + bitSum k (x / 2))
      omega

/-! ### Lemmas about slice readers -/

theorem sliceVal_congr (f g : Int → Int) (a : Int) (cnt : Nat)
    (h : ∀ j, a ≤ j → j < a + cnt → f j = g j) :
    sliceVal f a cnt = sliceVal g a cnt := by
  induction cnt generalizing a with
  | zero => rfl
  | succ k ih =>
      show (f a - 1) + 2 * sliceVal f (a + 1) k = (g a - 1) + 2 * sliceVal g (a + 1) k
      rw [h a le_rfl (by push_cast; omega),
        ih (a + 1) (fun j h1 h2 => h j (by omega) (by push_cast at h2 ⊢; omega))]

theorem sliceSum_congr (f g : Int → Int) (a : Int) (cnt : Nat)
    (h : ∀ j, a ≤ j → j < a + cnt → f j = g j) :
    sliceSum f a cnt = sliceSum g a cnt := by
  induction cnt generalizing a with
  | zero => rfl
  | succ k ih =>
      show (f a - 1) + sliceSum f (a + 1) k = (g a - 1) + sliceSum g (a + 1) k
      rw [h a le_rfl (by push_cast; omega),
        ih (a + 1) (fun j h1 h2 => h j (by omega) (by push_cast at h2 ⊢; omega))]

theorem sliceVal_update_out (f : Int → Int) (i v : Int) (a : Int) (cnt : Nat)
    (h : i < a ∨ a + cnt ≤ i) :
    sliceVal (Function.update f i v) a cnt = sliceVal f a cnt :=
  sliceVal_congr _ _ a cnt fun j h1 h2 => Function.update_noteq (by omega) v f

theorem sliceSum_update_out (f : Int → Int) (i v : Int) (a : Int) (cnt : Nat)
    (h : i < a ∨ a + cnt ≤ i) :
    sliceSum (Function.update f i v) a cnt = sliceSum f a cnt :=
  sliceSum_congr _ _ a cnt fun j h1 h2 => Function.update_noteq (by omega) v f

theorem sliceVal_writeBits_out (b : Int) (cntB : Nat) (x : Int) (arr : Int → Int)
    (p : Int) (a : Int) (cnt : Nat) (h : a + cnt ≤ b ∨ b + cntB ≤ a) :
    sliceVal (writeBits b cntB x arr p).1 a cnt = sliceVal arr a cnt :=
  sliceVal_congr _ _ a cnt fun j h1 h2 =>
    writeBits_fst_out b cntB x arr p j (by omega)

theorem sliceSum_writeBits_out (b : Int) (cntB : Nat) (x : Int) (arr : Int → Int)
    (p : Int) (a : Int) (cnt : Nat) (h : a + cnt ≤ b ∨ b + cntB ≤ a) :
    sliceSum (writeBits b cntB x arr p).1 a cnt = sliceSum arr a cnt :=
  sliceSum_congr _ _ a cnt fun j h1 h2 =>
    writeBits_fst_out b cntB x arr p j (by omega)

theorem sliceVal_writeBits (a : Int) (cnt : Nat) (x : Int) (arr : Int → Int) (p : Int) :
    sliceVal (writeBits a cnt x arr p).1 a cnt = lowBits cnt x := by
  induction cnt generalizing a x arr p with
  | zero => rfl
  | succ k ih =>
      show ((writeBits a (k + 1) x arr p).1 a - 1) +
          2 * sliceVal (writeBits a (k + 1) x arr p).1 (a + 1) k =
          x % 2 + 2 * lowBits k (x / 2)
      have h1 : (writeBits a (k + 1) x arr p).1 a = x % 2 + 1 := by
        show (writeBits (a + 1) k (x / 2) (Function.update arr a (x % 2 + 1))
          (p + x % 2)).1 a = x % 2 + 1
        rw [writeBits_fst_out (a + 1) k _ _ _ _ (by omega)]
        exact Function.update_same a _ arr
      have h2 : sliceVal (writeBits a (k + 1) x arr p).1 (a + 1) k = lowBits k (x / 2) := by
        show sliceVal (writeBits (a + 1) k (x / 2) (Function.update arr a (x % 2 + 1))
          (p + x % 2)).1 (a + 1) k = lowBits k (x / 2)
        exact ih (a + 1) (x / 2) _ _
      rw [h1, h2]
      omega

theorem sliceSum_writeBits (a : Int) (cnt : Nat) (x : Int) (arr : Int → Int) (p : Int) :
    sliceSum (writeBits a cnt x arr p).1 a cnt = bitSum cnt x := by
  induction cnt generalizing a x arr p with
  | zero => rfl
  | succ k ih =>
      show ((writeBits a (k + 1) x arr p).1 a - 1) +
          sliceSum (writeBits a (k + 1) x arr p).1 (a + 1) k =
          x % 2 + bitSum k (x / 2)
      have h1 : (writeBits a (k + 1) x arr p).1 a = x % 2 + 1 := by
        show (writeBits (a + 1) k (x / 2) (Function.update arr a (x % 2 + 1))
          (p + x % 2)).1 a = x % 2 + 1
        rw [writeBits_fst_out (a + 1) k _ _ _ _ (by omega)]
        exact Function.update_same a _ arr
      have h2 : sliceSum (writeBits a (k + 1) x arr p).1 (a + 1) k = bitSum k (x / 2) := by
        show sliceSum (writeBits (a + 1) k (x / 2) (Function.update arr a (x % 2 + 1))
          (p + x % 2)).1 (a + 1) k = bitSum k (x / 2)
        exact ih (a + 1) (x / 2) _ _
      rw [h1, h2]
      omega

theorem sliceSum_snoc (f : Int → Int) (a : Int) (cnt : Nat) :
    sliceSum f a (cnt + 1) = sliceSum f a cnt + (f (a + cnt) - 1) := by
  induction cnt generalizing a with
  | zero =>
      have e : a + ((0:Nat) : Int) = a := by push_cast; omega
      show (f a - 1) + 0 = 0 + (f (a + (0:Nat)) - 1)
      rw [e]
      omega
  | succ k ih =>
      show (f a - 1) + sliceSum f (a + 1) (k + 1) =
        (f a - 1) + sliceSum f (a + 1) k + (f (a + (k + 1 : Nat)) - 1)
      rw [ih (a + 1)]
      have e : (a + 1) + (k : Int) = a + ((k + 1 : Nat) : Int) := by push_cast; omega
      rw [e]
      omega

/-! ### Slot-level characterization of calculateArray -/

theorem calc_out (off : Int) (t : Tm) (arr : Int → Int) (j : Int)
    (h : j < off ∨ off + 60 ≤ j) : calculateArray off t arr j = arr j := by
  simp only [calculateArray]
  rw [Function.update_noteq (show j ≠ 59 + off by omega)]
  rw [Function.update_noteq (show j ≠ 58 + off by omega)]
  rw [writeBits_fst_out (50 + off) 8 _ _ _ j (by push_cast; omega)]
  rw [writeBits_fst_out (45 + off) 5 _ _ _ j (by push_cast; omega)]
  rw [writeBits_fst_out (42 + off) 3 _ _ _ j (by push_cast; omega)]
  rw [writeBits_fst_out (36 + off) 6 _ _ _ j (by push_cast; omega)]
  rw [Function.update_noteq (show j ≠ 35 + off by omega)]
  rw [writeBits_fst_out (29 + off) 6 _ _ _ j (by push_cast; omega)]
  rw [Function.update_noteq (show j ≠ 28 + off by omega)]
  rw [writeBits_fst_out (21 + off) 7 _ _ _ j (by push_cast; omega)]
  rw [Function.update_noteq (show j ≠ 20 + off by omega)]
  by_cases hd : t.tm_isdst = 1
  · rw [if_pos hd, Function.update_noteq (show j ≠ 17 + off by omega)]
    exact writeConst_out off 20 1 arr j (by push_cast; omega)
  · rw [if_neg hd, Function.update_noteq (show j ≠ 18 + off by omega)]
    exact writeConst_out off 20 1 arr j (by push_cast; omega)

theorem calc_minBit (off : Int) (t : Tm) (arr : Int → Int) (k : Nat) (hk : k < 7) :
    calculateArray off t arr (21 + off + k) = bitAt (bin2Bcd t.tm_min) k + 1 := by
  simp only [calculateArray]
  rw [Function.update_noteq (show 21 + off + (k:Int) ≠ 59 + off by omega)]
  rw [Function.update_noteq (show 21 + off + (k:Int) ≠ 58 + off by omega)]
  rw [writeBits_fst_out (50 + off) 8 _ _ _ _ (by push_cast; omega)]
  rw [writeBits_fst_out (45 + off) 5 _ _ _ _ (by push_cast; omega)]
  rw [writeBits_fst_out (42 + off) 3 _ _ _ _ (by push_cast; omega)]
  rw [writeBits_fst_out (36 + off) 6 _ _ _ _ (by push_cast; omega)]
  rw [Function.update_noteq (show 21 + off + (k:Int) ≠ 35 + off by omega)]
  rw [writeBits_fst_out (29 + off) 6 _ _ _ _ (by push_cast; omega)]
  rw [Function.update_noteq (show 21 + off + (k:Int) ≠ 28 + off by omega)]
  exact writeBits_fst_in (21 + off) 7 _ _ _ k hk

theorem calc_low (off : Int) (t : Tm) (arr : Int → Int) (k : Nat) (hk : k < 20)
    (h17 : k ≠ 17) (h18 : k ≠ 18) : calculateArray off t arr (off + k) = 1 := by
  simp only [calculateArray]
  rw [Function.update_noteq (show off + (k:Int) ≠ 59 + off by omega)]
  rw [Function.update_noteq (show off + (k:Int) ≠ 58 + off by omega)]
  rw [writeBits_fst_out (50 + off) 8 _ _ _ _ (by push_cast; omega)]
  rw [writeBits_fst_out (45 + off) 5 _ _ _ _ (by push_cast; omega)]
  rw [writeBits_fst_out (42 + off) 3 _ _ _ _ (by push_cast; omega)]
  rw [writeBits_fst_out (36 + off) 6 _ _ _ _ (by push_cast; omega)]
  rw [Function.update_noteq (show off + (k:Int) ≠ 35 + off by omega)]
  rw [writeBits_fst_out (29 + off) 6 _ _ _ _ (by push_cast; omega)]
  rw [Function.update_noteq (show off + (k:Int) ≠ 28 + off by omega)]
  rw [writeBits_fst_out (21 + off) 7 _ _ _ _ (by push_cast; omega)]
  rw [Function.update_noteq (show off + (k:Int) ≠ 20 + off by omega)]
  by_cases hd : t.tm_isdst = 1
  · rw [if_pos hd, Function.update_noteq (show off + (k:Int) ≠ 17 + off by omega)]
    exact writeConst_in off 20 1 arr _ (by omega) (by push_cast; omega)
  · rw [if_neg hd, Function.update_noteq (show off + (k:Int) ≠ 18 + off by omega)]
    exact writeConst_in off 20 1 arr _ (by omega) (by push_cast; omega)

theorem calc_dstA (off : Int) (t : Tm) (arr : Int → Int) :
    calculateArray off t arr (17 + off) = if t.tm_isdst = 1 then 2 else 1 := by
  simp only [calculateArray]
  rw [Function.update_noteq (show 17 + off ≠ 59 + off by omega)]
  rw [Function.update_noteq (show 17 + off ≠ 58 + off by omega)]
  rw [writeBits_fst_out (50 + off) 8 _ _ _ _ (by push_cast; omega)]
  rw [writeBits_fst_out (45 + off) 5 _ _ _ _ (by push_cast; omega)]
  rw [writeBits_fst_out (42 + off) 3 _ _ _ _ (by push_cast; omega)]
  rw [writeBits_fst_out (36 + off) 6 _ _ _ _ (by push_cast; omega)]
  rw [Function.update_noteq (show 17 + off ≠ 35 + off by omega)]
  rw [writeBits_fst_out (29 + off) 6 _ _ _ _ (by push_cast; omega)]
  rw [Function.update_noteq (show 17 + off ≠ 28 + off by omega)]
  rw [writeBits_fst_out (21 + off) 7 _ _ _ _ (by push_cast; omega)]
  rw [Function.update_noteq (show 17 + off ≠ 20 + off by omega)]
  by_cases hd : t.tm_isdst = 1
  · rw [if_pos hd, if_pos hd]
    exact Function.update_same _ _ _
  · rw [if_neg hd, if_neg hd, Function.update_noteq (show 17 + off ≠ 18 + off by omega)]
    exact writeConst_in off 20 1 arr _ (by omega) (by push_cast; omega)

theorem calc_dstB (off : Int) (t : Tm) (arr : Int → Int) :
    calculateArray off t arr (18 + off) = if t.tm_isdst = 1 then 1 else 2 := by
  simp only [calculateArray]
  rw [Function.update_noteq (show 18 + off ≠ 59 + off by omega)]
  rw [Function.update_noteq (show 18 + off ≠ 58 + off by omega)]
  rw [writeBits_fst_out (50 + off) 8 _ _ _ _ (by push_cast; omega)]
  rw [writeBits_fst_out (45 + off) 5 _ _ _ _ (by push_cast; omega)]
  rw [writeBits_fst_out (42 + off) 3 _ _ _ _ (by push_cast; omega)]
  rw [writeBits_fst_out (36 + off) 6 _ _ _ _ (by push_cast; omega)]
  rw [Function.update_noteq (show 18 + off ≠ 35 + off by omega)]
  rw [writeBits_fst_out (29 + off) 6 _ _ _ _ (by push_cast; omega)]
  rw [Function.update_noteq (show 18 + off ≠ 28 + off by omega)]
  rw [writeBits_fst_out (21 + off) 7 _ _ _ _ (by push_cast; omega)]
  rw [Function.update_noteq (show 18 + off ≠ 20 + off by omega)]
  by_cases hd : t.tm_isdst = 1
  · rw [if_pos hd, if_pos hd, Function.update_noteq (show 18 + off ≠ 17 + off by omega)]
    exact writeConst_in off 20 1 arr _ (by omega) (by push_cast; omega)
  · rw [if_neg hd, if_neg hd]
    exact Function.update_same _ _ _

theorem calc_start (off : Int) (t : Tm) (arr : Int → Int) :
    calculateArray off t arr (20 + off) = 2 := by
  simp only [calculateArray]
  rw [Function.update_noteq (show 20 + off ≠ 59 + off by omega)]
  rw [Function.update_noteq (show 20 + off ≠ 58 + off by omega)]
  rw [writeBits_fst_out (50 + off) 8 _ _ _ _ (by push_cast; omega)]
  rw [writeBits_fst_out (45 + off) 5 _ _ _ _ (by push_cast; omega)]
  rw [writeBits_fst_out (42 + off) 3 _ _ _ _ (by push_cast; omega)]
  rw [writeBits_fst_out (36 + off) 6 _ _ _ _ (by push_cast; omega)]
  rw [Function.update_noteq (show 20 + off ≠ 35 + off by omega)]
  rw [writeBits_fst_out (29 + off) 6 _ _ _ _ (by push_cast; omega)]
  rw [Function.update_noteq (show 20 + off ≠ 28 + off by omega)]
  rw [writeBits_fst_out (21 + off) 7 _ _ _ _ (by push_cast; omega)]
  exact Function.update_same _ _ _

theorem calc_minParityBit (off : Int) (t : Tm) (arr : Int → Int) :
    calculateArray off t arr (28 + off) =
      if bitSum 7 (bin2Bcd t.tm_min) % 2 = 0 then 1 else 2 := by
  simp only [calculateArray]
  rw [Function.update_noteq (show 28 + off ≠ 59 + off by omega)]
  rw [Function.update_noteq (show 28 + off ≠ 58 + off by omega)]
  rw [writeBits_fst_out (50 + off) 8 _ _ _ _ (by push_cast; omega)]
  rw [writeBits_fst_out (45 + off) 5 _ _ _ _ (by push_cast; omega)]
  rw [writeBits_fst_out (42 + off) 3 _ _ _ _ (by push_cast; omega)]
  rw [writeBits_fst_out (36 + off) 6 _ _ _ _ (by push_cast; omega)]
  rw [Function.update_noteq (show 28 + off ≠ 35 + off by omega)]
  rw [writeBits_fst_out (29 + off) 6 _ _ _ _ (by push_cast; omega)]
  rw [Function.update_same, writeBits_snd]
  rw [zero_add]

theorem calc_hourBit (off : Int) (t : Tm) (arr : Int → Int) (k : Nat) (hk : k < 6) :
    calculateArray off t arr (29 + off + k) = bitAt (bin2Bcd t.tm_hour) k + 1 := by
  simp only [calculateArray]
  rw [Function.update_noteq (show 29 + off + (k:Int) ≠ 59 + off by omega)]
  rw [Function.update_noteq (show 29 + off + (k:Int) ≠ 58 + off by omega)]
  rw [writeBits_fst_out (50 + off) 8 _ _ _ _ (by push_cast; omega)]
  rw [writeBits_fst_out (45 + off) 5 _ _ _ _ (by push_cast; omega)]
  rw [writeBits_fst_out (42 + off) 3 _ _ _ _ (by push_cast; omega)]
  rw [writeBits_fst_out (36 + off) 6 _ _ _ _ (by push_cast; omega)]
  rw [Function.update_noteq (show 29 + off + (k:Int) ≠ 35 + off by omega)]
  exact writeBits_fst_in (29 + off) 6 _ _ _ k hk

theorem calc_hourParityBit (off : Int) (t : Tm) (arr : Int → Int) :
    calculateArray off t arr (35 + off) =
      if bitSum 6 (bin2Bcd t.tm_hour) % 2 = 0 then 1 else 2 := by
  simp only [calculateArray]
  rw [Function.update_noteq (show 35 + off ≠ 59 + off by omega)]
  rw [Function.update_noteq (show 35 + off ≠ 58 + off by omega)]
  rw [writeBits_fst_out (50 + off) 8 _ _ _ _ (by push_cast; omega)]
  rw [writeBits_fst_out (45 + off) 5 _ _ _ _ (by push_cast; omega)]
  rw [writeBits_fst_out (42 + off) 3 _ _ _ _ (by push_cast; omega)]
  rw [writeBits_fst_out (36 + off) 6 _ _ _ _ (by push_cast; omega)]
  rw [Function.update_same, writeBits_snd]
  rw [zero_add]

theorem calc_dayBit (off : Int) (t : Tm) (arr : Int → Int) (k : Nat) (hk : k < 6) :
    calculateArray off t arr (36 + off + k) = bitAt (bin2Bcd t.tm_mday) k + 1 := by
  simp only [calculateArray]
  rw [Function.update_noteq (show 36 + off + (k:Int) ≠ 59 + off by omega)]
  rw [Function.update_noteq (show 36 + off + (k:Int) ≠ 58 + off by omega)]
  rw [writeBits_fst_out (50 + off) 8 _ _ _ _ (by push_cast; omega)]
  rw [writeBits_fst_out (45 + off) 5 _ _ _ _ (by push_cast; omega)]
  rw [writeBits_fst_out (42 + off) 3 _ _ _ _ (by push_cast; omega)]
  exact writeBits_fst_in (36 + off) 6 _ _ _ k hk

theorem calc_wdayBit (off : Int) (t : Tm) (arr : Int → Int) (k : Nat) (hk : k < 3) :
    calculateArray off t arr (42 + off + k) = bitAt (bin2Bcd t.tm_wday) k + 1 := by
  simp only [calculateArray]
  rw [Function.update_noteq (show 42 + off + (k:Int) ≠ 59 + off by omega)]
  rw [Function.update_noteq (show 42 + off + (k:Int) ≠ 58 + off by omega)]
  rw [writeBits_fst_out (50 + off) 8 _ _ _ _ (by push_cast; omega)]
  rw [writeBits_fst_out (45 + off) 5 _ _ _ _ (by push_cast; omega)]
  exact writeBits_fst_in (42 + off) 3 _ _ _ k hk

theorem calc_monBit (off : Int) (t : Tm) (arr : Int → Int) (k : Nat) (hk : k < 5) :
    calculateArray off t arr (45 + off + k) = bitAt (bin2Bcd t.tm_mon) k + 1 := by
  simp only [calculateArray]
  rw [Function.update_noteq (show 45 + off + (k:Int) ≠ 59 + off by omega)]
  rw [Function.update_noteq (show 45 + off + (k:Int) ≠ 58 + off by omega)]
  rw [writeBits_fst_out (50 + off) 8 _ _ _ _ (by push_cast; omega)]
  exact writeBits_fst_in (45 + off) 5 _ _ _ k hk

theorem calc_yearBit (off : Int) (t : Tm) (arr : Int → Int) (k : Nat) (hk : k < 8) :
    calculateArray off t arr (50 + off + k) =
      bitAt (bin2Bcd (t.tm_year - 2000)) k + 1 := by
  simp only [calculateArray]
  rw [Function.update_noteq (show 50 + off + (k:Int) ≠ 59 + off by omega)]
  rw [Function.update_noteq (show 50 + off + (k:Int) ≠ 58 + off by omega)]
  exact writeBits_fst_in (50 + off) 8 _ _ _ k hk

theorem calc_dateParityBit (off : Int) (t : Tm) (arr : Int → Int) :
    calculateArray off t arr (58 + off) =
      if (bitSum 6 (bin2Bcd t.tm_mday) + bitSum 3 (bin2Bcd t.tm_wday) +
          bitSum 5 (bin2Bcd t.tm_mon) + bitSum 8 (bin2Bcd (t.tm_year - 2000))) % 2 = 0
      then 1 else 2 := by
  simp only [calculateArray]
  rw [Function.update_noteq (show 58 + off ≠ 59 + off by omega)]
  rw [Function.update_same]
  rw [writeBits_snd, writeBits_snd, writeBits_snd, writeBits_snd]
  rw [zero_add]

theorem calc_marker (off : Int) (t : Tm) (arr : Int → Int) :
    calculateArray off t arr (59 + off) = 0 := by
  simp only [calculateArray]
  exact Function.update_same _ _ _

/-! ### Field slices of calculateArray -/

theorem calc_minField (off : Int) (t : Tm) (arr : Int → Int) :
    sliceVal (calculateArray off t arr) (21 + off) 7 = lowBits 7 (bin2Bcd t.tm_min) := by
  simp only [calculateArray]
  rw [sliceVal_update_out _ (59 + off) 0 (21 + off) 7 (by push_cast; omega)]
  rw [sliceVal_update_out _ (58 + off) _ (21 + off) 7 (by push_cast; omega)]
  rw [sliceVal_writeBits_out (50 + off) 8 _ _ _ (21 + off) 7 (by push_cast; omega)]
  rw [sliceVal_writeBits_out (45 + off) 5 _ _ _ (21 + off) 7 (by push_cast; omega)]
  rw [sliceVal_writeBits_out (42 + off) 3 _ _ _ (21 + off) 7 (by push_cast; omega)]
  rw [sliceVal_writeBits_out (36 + off) 6 _ _ _ (21 + off) 7 (by push_cast; omega)]
  rw [sliceVal_update_out _ (35 + off) _ (21 + off) 7 (by push_cast; omega)]
  rw [sliceVal_writeBits_out (29 + off) 6 _ _ _ (21 + off) 7 (by push_cast; omega)]
  rw [sliceVal_update_out _ (28 + off) _ (21 + off) 7 (by push_cast; omega)]
  exact sliceVal_writeBits (21 + off) 7 _ _ _

theorem calc_minSum (off : Int) (t : Tm) (arr : Int → Int) :
    sliceSum (calculateArray off t arr) (21 + off) 8 =
      bitSum 7 (bin2Bcd t.tm_min) +
        ((if bitSum 7 (bin2Bcd t.tm_min) % 2 = 0 then 1 else 2) - 1) := by
  have h8 : sliceSum (calculateArray off t arr) (21 + off) 8 =
      sliceSum (calculateArray off t arr) (21 + off) 7 +
        (calculateArray off t arr (28 + off) - 1) := by
    rw [sliceSum_snoc (calculateArray off t arr) (21 + off) 7]
    have e : 21 + off + ((7:Nat) : Int) = 28 + off := by push_cast; omega
    rw [e]
  rw [h8, calc_minParityBit off t arr]
  have h7 : sliceSum (calculateArray off t arr) (21 + off) 7 =
      bitSum 7 (bin2Bcd t.tm_min) := by
    simp only [calculateArray]
    rw [sliceSum_update_out _ (59 + off) 0 (21 + off) 7 (by push_cast; omega)]
    rw [sliceSum_update_out _ (58 + off) _ (21 + off) 7 (by push_cast; omega)]
    rw [sliceSum_writeBits_out (50 + off) 8 _ _ _ (21 + off) 7 (by push_cast; omega)]
    rw [sliceSum_writeBits_out (45 + off) 5 _ _ _ (21 + off) 7 (by push_cast; omega)]
    rw [sliceSum_writeBits_out (42 + off) 3 _ _ _ (21 + off) 7 (by push_cast; omega)]
    rw [sliceSum_writeBits_out (36 + off) 6 _ _ _ (21 + off) 7 (by push_cast; omega)]
    rw [sliceSum_update_out _ (35 + off) _ (21 + off) 7 (by push_cast; omega)]
    rw [sliceSum_writeBits_out (29 + off) 6 _ _ _ (21 + off) 7 (by push_cast; omega)]
    rw [sliceSum_update_out _ (28 + off) _ (21 + off) 7 (by push_cast; omega)]
    exact sliceSum_writeBits (21 + off) 7 _ _ _
  rw [h7]

theorem calc_wdayField (off : Int) (t : Tm) (arr : Int → Int) :
    sliceVal (calculateArray off t arr) (42 + off) 3 = lowBits 3 (bin2Bcd t.tm_wday) := by
  simp only [calculateArray]
  rw [sliceVal_update_out _ (59 + off) 0 (42 + off) 3 (by push_cast; omega)]
  rw [sliceVal_update_out _ (58 + off) _ (42 + off) 3 (by push_cast; omega)]
  rw [sliceVal_writeBits_out (50 + off) 8 _ _ _ (42 + off) 3 (by push_cast; omega)]
  rw [sliceVal_writeBits_out (45 + off) 5 _ _ _ (42 + off) 3 (by push_cast; omega)]
  exact sliceVal_writeBits (42 + off) 3 _ _ _

theorem calc_monField (off : Int) (t : Tm) (arr : Int → Int) :
    sliceVal (calculateArray off t arr) (45 + off) 5 = lowBits 5 (bin2Bcd t.tm_mon) := by
  simp only [calculateArray]
  rw [sliceVal_update_out _ (59 + off) 0 (45 + off) 5 (by push_cast; omega)]
  rw [sliceVal_update_out _ (58 + off) _ (45 + off) 5 (by push_cast; omega)]
  rw [sliceVal_writeBits_out (50 + off) 8 _ _ _ (45 + off) 5 (by push_cast; omega)]
  exact sliceVal_writeBits (45 + off) 5 _ _ _

theorem calc_yearField (off : Int) (t : Tm) (arr : Int → Int) :
    sliceVal (calculateArray off t arr) (50 + off) 8 =
      lowBits 8 (bin2Bcd (t.tm_year - 2000)) := by
  simp only [calculateArray]
  rw [sliceVal_update_out _ (59 + off) 0 (50 + off) 8 (by push_cast; omega)]
  rw [sliceVal_update_out _ (58 + off) _ (50 + off) 8 (by push_cast; omega)]
  exact sliceVal_writeBits (50 + off) 8 _ _ _

theorem sliceVal_calc_out (off : Int) (t : Tm) (arr : Int → Int) (a : Int) (cnt : Nat)
    (h : a + cnt ≤ off ∨ off + 60 ≤ a) :
    sliceVal (calculateArray off t arr) a cnt = sliceVal arr a cnt :=
  sliceVal_congr _ _ a cnt fun j h1 h2 => calc_out off t arr j (by omega)

theorem calc_indep (off : Int) (t : Tm) (arr arr2 : Int → Int) (j : Int)
    (h1 : off ≤ j) (h2 : j < off + 60) :
    calculateArray off t arr j = calculateArray off t arr2 j := by
  have hsplit : j = 17 + off ∨ j = 18 + off ∨ j = 20 + off ∨ j = 28 + off ∨
      j = 35 + off ∨ j = 58 + off ∨ j = 59 + off ∨
      (off ≤ j ∧ j < off + 20 ∧ j ≠ 17 + off ∧ j ≠ 18 + off) ∨
      (21 + off ≤ j ∧ j < 28 + off) ∨ (29 + off ≤ j ∧ j < 35 + off) ∨
      (36 + off ≤ j ∧ j < 42 + off) ∨ (42 + off ≤ j ∧ j < 45 + off) ∨
      (45 + off ≤ j ∧ j < 50 + off) ∨ (50 + off ≤ j ∧ j < 58 + off) := by omega
  rcases hsplit with h | h | h | h | h | h | h | h | h | h | h | h | h | h
  · rw [h, calc_dstA, calc_dstA]
  · rw [h, calc_dstB, calc_dstB]
  · rw [h, calc_start, calc_start]
  · rw [h, calc_minParityBit, calc_minParityBit]
  · rw [h, calc_hourParityBit, calc_hourParityBit]
  · rw [h, calc_dateParityBit, calc_dateParityBit]
  · rw [h, calc_marker, calc_marker]
  · obtain ⟨k, hj, hk, hk17, hk18⟩ :
        ∃ k : Nat, j = off + k ∧ k < 20 ∧ k ≠ 17 ∧ k ≠ 18 :=
      ⟨(j - off).toNat, by omega, by omega, by omega, by omega⟩
    rw [hj, calc_low off t arr k hk hk17 hk18, calc_low off t arr2 k hk hk17 hk18]
  · obtain ⟨k, hj, hk⟩ : ∃ k : Nat, j = 21 + off + k ∧ k < 7 :=
      ⟨(j - 21 - off).toNat, by omega, by omega⟩
    rw [hj, calc_minBit off t arr k hk, calc_minBit off t arr2 k hk]
  · obtain ⟨k, hj, hk⟩ : ∃ k : Nat, j = 29 + off + k ∧ k < 6 :=
      ⟨(j - 29 - off).toNat, by omega, by omega⟩
    rw [hj, calc_hourBit off t arr k hk, calc_hourBit off t arr2 k hk]
  · obtain ⟨k, hj, hk⟩ : ∃ k : Nat, j = 36 + off + k ∧ k < 6 :=
      ⟨(j - 36 - off).toNat, by omega, by omega⟩
    rw [hj, calc_dayBit off t arr k hk, calc_dayBit off t arr2 k hk]
  · obtain ⟨k, hj, hk⟩ : ∃ k : Nat, j = 42 + off + k ∧ k < 3 :=
      ⟨(j - 42 - off).toNat, by omega, by omega⟩
    rw [hj, calc_wdayBit off t arr k hk, calc_wdayBit off t arr2 k hk]
  · obtain ⟨k, hj, hk⟩ : ∃ k : Nat, j = 45 + off + k ∧ k < 5 :=
      ⟨(j - 45 - off).toNat, by omega, by omega⟩
    rw [hj, calc_monBit off t arr k hk, calc_monBit off t arr2 k hk]
  · obtain ⟨k, hj, hk⟩ : ∃ k : Nat, j = 50 + off + k ∧ k < 8 :=
      ⟨(j - 50 - off).toNat, by omega, by omega⟩
    rw [hj, calc_yearBit off t arr k hk, calc_yearBit off t arr2 k hk]

/-! ### Calendar normalization lemmas -/

theorem mkTimeNorm_sec (t : Tm) : (mkTimeNorm t).tm_sec = t.tm_sec % 60 := rfl

theorem normDays_of_le (fuel : Nat) (y m d : Int) (h : ¬ d > daysInMonth y m) :
    normDays fuel y m d = (y, m, d) := by
  cases fuel with
  | zero => rfl
  | succ f =>
      show (if d > daysInMonth y m then _ else _) = _
      rw [if_neg h]

theorem normDays_step (f : Nat) (y m d : Int) (h : d > daysInMonth y m) :
    normDays (f + 1) y m d =
      if m = 12 then normDays f (y + 1) 1 (d - daysInMonth y m)
      else normDays f y (m + 1) (d - daysInMonth y m) := by
  show (if d > daysInMonth y m then _ else _) = _
  rw [if_pos h]

theorem daysInMonth_pos (y m : Int) : 1 ≤ daysInMonth y m := by
  unfold daysInMonth
  split_ifs <;> norm_num

theorem mkTimeNorm_inRange (t : Tm) (h : inRange t) : mkTimeNorm t = t := by
  obtain ⟨h1, h2, h3, h4, h5, h6, h7, h8, h9, h10⟩ := h
  simp only [mkTimeNorm]
  have e1 : t.tm_sec / 60 = 0 := by omega
  have e2 : t.tm_sec % 60 = t.tm_sec := by omega
  rw [e1, e2, add_zero]
  have e3 : t.tm_min / 60 = 0 := by omega
  have e4 : t.tm_min % 60 = t.tm_min := by omega
  rw [e3, e4, add_zero]
  have e5 : t.tm_hour / 24 = 0 := by omega
  have e6 : t.tm_hour % 24 = t.tm_hour := by omega
  rw [e5, e6, add_zero]
  have e7 : (t.tm_mon - 1) / 12 = 0 := by omega
  have e8 : (t.tm_mon - 1) % 12 + 1 = t.tm_mon := by omega
  rw [e7, e8, add_zero]
  rw [normDays_of_le 960 t.tm_year t.tm_mon t.tm_mday (by omega)]

theorem addOneMinuteSpec_min (t : Tm) (h : inRange t) :
    (addOneMinuteSpec t).tm_min = (t.tm_min + 1) % 60 := by
  obtain ⟨h1, h2, h3, h4, h5, h6, h7, h8, h9, h10⟩ := h
  unfold addOneMinuteSpec
  split_ifs <;> simp <;> omega

theorem inRange_addOne (t : Tm) (h : inRange t) : inRange (addOneMinuteSpec t) := by
  obtain ⟨h1, h2, h3, h4, h5, h6, h7, h8, h9, h10⟩ := h
  have hp1 := daysInMonth_pos t.tm_year (t.tm_mon + 1)
  have hp2 := daysInMonth_pos (t.tm_year + 1) 1
  unfold addOneMinuteSpec inRange
  split_ifs with c1 c2 c3 c4 <;> refine ⟨?_, ?_, ?_, ?_, ?_, ?_, ?_, ?_, ?_, ?_⟩ <;>
    simp <;> omega

theorem addOneMinute_eq (t : Tm) (h : inRange t) :
    mkTimeNorm { t with tm_min := t.tm_min + 1 } = addOneMinuteSpec t := by
  obtain ⟨h1, h2, h3, h4, h5, h6, h7, h8, h9, h10⟩ := h
  simp only [mkTimeNorm, addOneMinuteSpec]
  rw [show t.tm_sec / 60 = 0 by omega, show t.tm_sec % 60 = t.tm_sec by omega, add_zero]
  rw [show (t.tm_mon - 1) / 12 = 0 by omega, show (t.tm_mon - 1) % 12 + 1 = t.tm_mon
    by omega, add_zero]
  split_ifs with c1 c2 c3 c4
  · rw [show (t.tm_min + 1) / 60 = 0 by omega, show (t.tm_min + 1) % 60 = t.tm_min + 1
      by omega, add_zero]
    rw [show t.tm_hour / 24 = 0 by omega, show t.tm_hour % 24 = t.tm_hour by omega,
      add_zero]
    rw [normDays_of_le 960 t.tm_year t.tm_mon t.tm_mday (by omega)]
  · rw [show (t.tm_min + 1) / 60 = 1 by omega, show (t.tm_min + 1) % 60 = 0 by omega]
    rw [show (t.tm_hour + 1) / 24 = 0 by omega,
      show (t.tm_hour + 1) % 24 = t.tm_hour + 1 by omega, add_zero]
    rw [normDays_of_le 960 t.tm_year t.tm_mon t.tm_mday (by omega)]
  · rw [show (t.tm_min + 1) / 60 = 1 by omega, show (t.tm_min + 1) % 60 = 0 by omega]
    rw [show (t.tm_hour + 1) / 24 = 1 by omega, show (t.tm_hour + 1) % 24 = 0 by omega]
    rw [normDays_of_le 960 t.tm_year t.tm_mon (t.tm_mday + 1) (by omega)]
  · rw [show (t.tm_min + 1) / 60 = 1 by omega, show (t.tm_min + 1) % 60 = 0 by omega]
    rw [show (t.tm_hour + 1) / 24 = 1 by omega, show (t.tm_hour + 1) % 24 = 0 by omega]
    rw [show (960 : Nat) = 959 + 1 from rfl,
      normDays_step 959 t.tm_year t.tm_mon (t.tm_mday + 1) (by omega)]
    rw [if_neg (show ¬ t.tm_mon = 12 by omega)]
    rw [show t.tm_mday + 1 - daysInMonth t.tm_year t.tm_mon = 1 by omega]
    have hp := daysInMonth_pos t.tm_year (t.tm_mon + 1)
    rw [normDays_of_le 959 t.tm_year (t.tm_mon + 1) 1 (by omega)]
  · rw [show (t.tm_min + 1) / 60 = 1 by omega, show (t.tm_min + 1) % 60 = 0 by omega]
    rw [show (t.tm_hour + 1) / 24 = 1 by omega, show (t.tm_hour + 1) % 24 = 0 by omega]
    rw [show (960 : Nat) = 959 + 1 from rfl,
      normDays_step 959 t.tm_year t.tm_mon (t.tm_mday + 1) (by omega)]
    rw [if_pos (show t.tm_mon = 12 by omega)]
    rw [show t.tm_mday + 1 - daysInMonth t.tm_year t.tm_mon = 1 by omega]
    have hp := daysInMonth_pos (t.tm_year + 1) 1
    rw [normDays_of_le 959 (t.tm_year + 1) 1 1 (by omega)]

theorem setupDcf_at0 (arr : Int → Int) : setupDcf arr 0 = 1 := by
  simp [setupDcf, MaxPulseNumber, Function.update_apply]

theorem setupDcf_at1 (arr : Int → Int) : setupDcf arr 1 = 0 := by
  simp [setupDcf, MaxPulseNumber, Function.update_apply]

theorem setupDcf_at182 (arr : Int → Int) : setupDcf arr 182 = 1 := by
  simp [setupDcf, MaxPulseNumber, Function.update_apply]

/-! ### Claim theorems -/

/-- C1: for every calendar snapshot with minute 0-59 and any frame offset,
the minute-frame built by `calculateArray` stores at slots 21-27 the BCD
encoding of the minute LSB first, so BCD-decoding those seven bits returns
the original minute, and slot 28 holds the even-parity bit: the popcount of
the 8-bit group of slots 21-28 is even. -/
theorem claim1_minute_bcd_parity (off : Int) (t : Tm) (arr : Int → Int)
    (h1 : 0 ≤ t.tm_min) (h2 : t.tm_min ≤ 59) :
    bcdDecode (sliceVal (calculateArray off t arr) (21 + off) 7) = t.tm_min ∧
    sliceSum (calculateArray off t arr) (21 + off) 8 % 2 = 0 := by
  constructor
  · rw [calc_minField]
    have e : ∀ X : Int, lowBits 7 X =
        X % 2 + 2 * (X/2 % 2 + 2 * (X/2/2 % 2 + 2 * (X/2/2/2 % 2 +
          2 * (X/2/2/2/2 % 2 + 2 * (X/2/2/2/2/2 % 2 +
            2 * (X/2/2/2/2/2/2 % 2 + 2 * 0)))))) := fun X => rfl
    rw [e]
    unfold bcdDecode bin2Bcd
    split_ifs with hm
    · omega
    · omega
  · rw [calc_minSum]
    by_cases hp : bitSum 7 (bin2Bcd t.tm_min) % 2 = 0
    · rw [if_pos hp]; omega
    · rw [if_neg hp]; omega

/-- Witness for C1 at offset 2 and minute 37. -/
theorem claim1_minute_bcd_parity_witness :
    (0 : Int) ≤ (Tm.mk 10 37 5 12 8 2024 3 0).tm_min ∧
    (Tm.mk 10 37 5 12 8 2024 3 0).tm_min ≤ 59 ∧
    bcdDecode (sliceVal (calculateArray 2 (Tm.mk 10 37 5 12 8 2024 3 0)
      (fun _ => 7)) (21 + 2) 7) = (Tm.mk 10 37 5 12 8 2024 3 0).tm_min ∧
    sliceSum (calculateArray 2 (Tm.mk 10 37 5 12 8 2024 3 0)
      (fun _ => 7)) (21 + 2) 8 % 2 = 0 :=
  ⟨by decide, by decide,
    (claim1_minute_bcd_parity 2 (Tm.mk 10 37 5 12 8 2024 3 0) (fun _ => 7)
      (by decide) (by decide)).1,
    (claim1_minute_bcd_parity 2 (Tm.mk 10 37 5 12 8 2024 3 0) (fun _ => 7)
      (by decide) (by decide)).2⟩

/-- C2: for every snapshot whose month field (as supplied by the spec's
month(1-12) time source) is in 1-12, slots 45-49 of the frame BCD-encode
that month LSB first: decoding the five bits yields the month. -/
theorem claim2_month_bcd (off : Int) (t : Tm) (arr : Int → Int)
    (h1 : 1 ≤ t.tm_mon) (h2 : t.tm_mon ≤ 12) :
    bcdDecode (sliceVal (calculateArray off t arr) (45 + off) 5) = t.tm_mon := by
  rw [calc_monField]
  have e : ∀ X : Int, lowBits 5 X =
      X % 2 + 2 * (X/2 % 2 + 2 * (X/2/2 % 2 + 2 * (X/2/2/2 % 2 +
        2 * (X/2/2/2/2 % 2 + 2 * 0)))) := fun X => rfl
  rw [e]
  unfold bcdDecode bin2Bcd
  split_ifs with hm
  · omega
  · omega

/-- Witness for C2 at offset 62 and month 12. -/
theorem claim2_month_bcd_witness :
    (1 : Int) ≤ (Tm.mk 10 30 5 24 12 2024 3 0).tm_mon ∧
    (Tm.mk 10 30 5 24 12 2024 3 0).tm_mon ≤ 12 ∧
    bcdDecode (sliceVal (calculateArray 62 (Tm.mk 10 30 5 24 12 2024 3 0)
      (fun _ => 7)) (45 + 62) 5) = (Tm.mk 10 30 5 24 12 2024 3 0).tm_mon :=
  ⟨by decide, by decide,
    claim2_month_bcd 62 (Tm.mk 10 30 5 24 12 2024 3 0) (fun _ => 7)
      (by decide) (by decide)⟩

/-- C3: for every snapshot whose year-within-century (the `tm_year - 2000`
the code feeds to the BCD encoder) lies in 0-99, slots 50-57 BCD-encode it
LSB first: decoding the eight bits yields the calendar year modulo 100. -/
theorem claim3_year_bcd (off : Int) (t : Tm) (arr : Int → Int)
    (h1 : 0 ≤ t.tm_year - 2000) (h2 : t.tm_year - 2000 ≤ 99) :
    bcdDecode (sliceVal (calculateArray off t arr) (50 + off) 8) = t.tm_year % 100 := by
  rw [calc_yearField]
  have e : ∀ X : Int, lowBits 8 X =
      X % 2 + 2 * (X/2 % 2 + 2 * (X/2/2 % 2 + 2 * (X/2/2/2 % 2 +
        2 * (X/2/2/2/2 % 2 + 2 * (X/2/2/2/2/2 % 2 +
          2 * (X/2/2/2/2/2/2 % 2 + 2 * (X/2/2/2/2/2/2/2 % 2 + 2 * 0))))))) :=
    fun X => rfl
  rw [e]
  unfold bcdDecode bin2Bcd
  split_ifs with hm
  · omega
  · omega

/-- Witness for C3 at offset 122 and year 2087. -/
theorem claim3_year_bcd_witness :
    (0 : Int) ≤ (Tm.mk 10 30 5 24 12 2087 3 0).tm_year - 2000 ∧
    (Tm.mk 10 30 5 24 12 2087 3 0).tm_year - 2000 ≤ 99 ∧
    bcdDecode (sliceVal (calculateArray 122 (Tm.mk 10 30 5 24 12 2087 3 0)
      (fun _ => 7)) (50 + 122) 8) = (Tm.mk 10 30 5 24 12 2087 3 0).tm_year % 100 :=
  ⟨by decide, by decide,
    claim3_year_bcd 122 (Tm.mk 10 30 5 24 12 2087 3 0) (fun _ => 7)
      (by decide) (by decide)⟩

/-- C4 counterexample: at a snapshot with weekday 0, `calculateArray` does
not map the weekday to 7: the three weekday slots 42-44 (at frame offset 2,
absolute slots 44-46) are all `Short` and decode to 0, outside the DCF77
range 1-7, refuting the claimed 0 -> 7 mapping. -/
theorem claim4_counterexample :
    calculateArray 2 (Tm.mk 30 15 10 5 10 2025 0 0) (fun _ => 7) (42 + 2) = 1 ∧
    calculateArray 2 (Tm.mk 30 15 10 5 10 2025 0 0) (fun _ => 7) (43 + 2) = 1 ∧
    calculateArray 2 (Tm.mk 30 15 10 5 10 2025 0 0) (fun _ => 7) (44 + 2) = 1 ∧
    bcdDecode (sliceVal (calculateArray 2 (Tm.mk 30 15 10 5 10 2025 0 0)
      (fun _ => 7)) (42 + 2) 3) = 0 := by
  decide

/-- C4 amended: `calculateArray` BCD-encodes the weekday field unchanged
into slots 42-44 with no 0 -> 7 remapping: for any weekday value 0-7 the
three bits decode back to exactly the supplied value, so a 0-based upstream
weekday of 0 is emitted as the out-of-range DCF77 weekday 0. -/
theorem claim4_weekday_unmapped (off : Int) (t : Tm) (arr : Int → Int)
    (h1 : 0 ≤ t.tm_wday) (h2 : t.tm_wday ≤ 7) :
    bcdDecode (sliceVal (calculateArray off t arr) (42 + off) 3) = t.tm_wday := by
  rw [calc_wdayField]
  have e : ∀ X : Int, lowBits 3 X =
      X % 2 + 2 * (X/2 % 2 + 2 * (X/2/2 % 2 + 2 * 0)) := fun X => rfl
  rw [e]
  unfold bcdDecode bin2Bcd
  split_ifs with hm
  · omega
  · omega

/-- Witness for the amended C4 at weekday 0. -/
theorem claim4_weekday_unmapped_witness :
    (0 : Int) ≤ (Tm.mk 30 15 10 5 10 2025 0 0).tm_wday ∧
    (Tm.mk 30 15 10 5 10 2025 0 0).tm_wday ≤ 7 ∧
    bcdDecode (sliceVal (calculateArray 2 (Tm.mk 30 15 10 5 10 2025 0 0)
      (fun _ => 7)) (42 + 2) 3) = (Tm.mk 30 15 10 5 10 2025 0 0).tm_wday :=
  ⟨by decide, by decide,
    claim4_weekday_unmapped 2 (Tm.mk 30 15 10 5 10 2025 0 0) (fun _ => 7)
      (by decide) (by decide)⟩

/-- C9 counterexample: the spec's fail-fast contract (modelled as
`bin2BcdSpec`, which rejects out-of-range input with `none`) is not what
the code does: `bin2Bcd` is total and simply returns a value - 160 for the
out-of-range input 100 - and execution continues. -/
theorem claim9_counterexample :
    bin2BcdSpec 100 = none ∧ bin2Bcd 100 = 160 ∧ bin2Bcd (-5) = -5 := by
  decide

/-- C9 amended: `bin2Bcd` does not abort on out-of-range input: it is a
total function that returns `(dato / 10) * 16 + dato % 10` for any input
at least 10 (for example 160 at input 100) and returns negative inputs
unchanged, and `calculateArray` keeps running on the garbage value: a frame
built with minute = 100 has a minute field that decodes to 20. -/
theorem claim9_no_failfast :
    bin2Bcd 100 = 160 ∧ bin2Bcd (-5) = -5 ∧
    bcdDecode (sliceVal (calculateArray 0 (Tm.mk 0 100 0 1 1 2024 1 0)
      (fun _ => 7)) (21 + 0) 7) = 20 := by
  decide

/-- C8: during an active transmission the tick handler `dcfOut` produces,
over subTicks 0..9 of one slot: for a `Long` slot (code 2) output low after
ticks 0-1 and high from tick 2 on; for a `Short` slot (code 1) low after
tick 0 and high from tick 1 on; for a `None` slot (code 0) the output is
never driven low - it keeps its previous level until tick 2 drives it
high; and at subTick 9 the slot index advances, the subTick counter resets
to 0, and the transmission-active flag is cleared with the index reset to 0
exactly when the slot just transmitted was the last one (182). -/
theorem claim8_pulse_emitter (arr : Int → Int) (p0 p1 p2 o : Int)
    (hL : arr p2 = 2) (hS : arr p1 = 1) (hN : arr p0 = 0) :
    ((dcfRun arr ⟨p2, 0, 1, o⟩ 1).out = 0 ∧ (dcfRun arr ⟨p2, 0, 1, o⟩ 2).out = 0 ∧
     (dcfRun arr ⟨p2, 0, 1, o⟩ 3).out = 1 ∧ (dcfRun arr ⟨p2, 0, 1, o⟩ 4).out = 1 ∧
     (dcfRun arr ⟨p2, 0, 1, o⟩ 5).out = 1 ∧ (dcfRun arr ⟨p2, 0, 1, o⟩ 6).out = 1 ∧
     (dcfRun arr ⟨p2, 0, 1, o⟩ 7).out = 1 ∧ (dcfRun arr ⟨p2, 0, 1, o⟩ 8).out = 1 ∧
     (dcfRun arr ⟨p2, 0, 1, o⟩ 9).out = 1 ∧ (dcfRun arr ⟨p2, 0, 1, o⟩ 10).out = 1) ∧
    ((dcfRun arr ⟨p1, 0, 1, o⟩ 1).out = 0 ∧ (dcfRun arr ⟨p1, 0, 1, o⟩ 2).out = 1 ∧
     (dcfRun arr ⟨p1, 0, 1, o⟩ 3).out = 1 ∧ (dcfRun arr ⟨p1, 0, 1, o⟩ 4).out = 1 ∧
     (dcfRun arr ⟨p1, 0, 1, o⟩ 5).out = 1 ∧ (dcfRun arr ⟨p1, 0, 1, o⟩ 6).out = 1 ∧
     (dcfRun arr ⟨p1, 0, 1, o⟩ 7).out = 1 ∧ (dcfRun arr ⟨p1, 0, 1, o⟩ 8).out = 1 ∧
     (dcfRun arr ⟨p1, 0, 1, o⟩ 9).out = 1 ∧ (dcfRun arr ⟨p1, 0, 1, o⟩ 10).out = 1) ∧
    ((dcfRun arr ⟨p0, 0, 1, o⟩ 1).out = o ∧ (dcfRun arr ⟨p0, 0, 1, o⟩ 2).out = o ∧
     (dcfRun arr ⟨p0, 0, 1, o⟩ 3).out = 1 ∧ (dcfRun arr ⟨p0, 0, 1, o⟩ 4).out = 1 ∧
     (dcfRun arr ⟨p0, 0, 1, o⟩ 5).out = 1 ∧ (dcfRun arr ⟨p0, 0, 1, o⟩ 6).out = 1 ∧
     (dcfRun arr ⟨p0, 0, 1, o⟩ 7).out = 1 ∧ (dcfRun arr ⟨p0, 0, 1, o⟩ 8).out = 1 ∧
     (dcfRun arr ⟨p0, 0, 1, o⟩ 9).out = 1 ∧ (dcfRun arr ⟨p0, 0, 1, o⟩ 10).out = 1) ∧
    ((dcfRun arr ⟨p2, 0, 1, o⟩ 9).pulseCount = p2 ∧
     (dcfRun arr ⟨p2, 0, 1, o⟩ 9).dcfOutputOn = 1 ∧
     (dcfRun arr ⟨p2, 0, 1, o⟩ 9).partialpulseCount = 9 ∧
     (dcfRun arr ⟨p2, 0, 1, o⟩ 10).partialpulseCount = 0 ∧
     (dcfRun arr ⟨p2, 0, 1, o⟩ 10).pulseCount = (if p2 = 182 then 0 else p2 + 1) ∧
     (dcfRun arr ⟨p2, 0, 1, o⟩ 10).dcfOutputOn = (if p2 = 182 then 0 else 1)) := by
  simp [dcfRun, dcfOut, MaxPulseNumber, hL, hS, hN, apply_ite]
  split_ifs with h <;> omega

/-- Witness for C8: a buffer holding code 0 at slot 0, code 1 at slot 1 and
code 2 elsewhere, starting each run at the matching slot with the line
high. -/
theorem claim8_pulse_emitter_witness :
    ((fun i => if i = 0 then 0 else if i = 1 then 1 else 2) : Int → Int) 2 = 2 ∧
    (dcfRun (fun i => if i = 0 then 0 else if i = 1 then 1 else 2)
      ⟨2, 0, 1, 1⟩ 1).out = 0 ∧
    (dcfRun (fun i => if i = 0 then 0 else if i = 1 then 1 else 2)
      ⟨1, 0, 1, 1⟩ 2).out = 1 ∧
    (dcfRun (fun i => if i = 0 then 0 else if i = 1 then 1 else 2)
      ⟨0, 0, 1, 1⟩ 1).out = 1 ∧
    (dcfRun (fun i => if i = 0 then 0 else if i = 1 then 1 else 2)
      ⟨2, 0, 1, 1⟩ 10).pulseCount = (if (2:Int) = 182 then 0 else 2 + 1) :=
  ⟨by decide,
   (claim8_pulse_emitter (fun i => if i = 0 then 0 else if i = 1 then 1 else 2)
     0 1 2 1 (by decide) (by decide) (by decide)).1.1,
   (claim8_pulse_emitter (fun i => if i = 0 then 0 else if i = 1 then 1 else 2)
     0 1 2 1 (by decide) (by decide) (by decide)).2.1.2.1,
   (claim8_pulse_emitter (fun i => if i = 0 then 0 else if i = 1 then 1 else 2)
     0 1 2 1 (by decide) (by decide) (by decide)).2.2.1.1,
   (claim8_pulse_emitter (fun i => if i = 0 then 0 else if i = 1 then 1 else 2)
     0 1 2 1 (by decide) (by decide) (by decide)).2.2.2.2.2.2.2.1⟩

/-- C10: for any offset in {2, 62, 122} and any snapshot, `calculateArray`
assigns exactly the 60 slots offset..offset+59 - their final values do not
depend on the array passed in - and leaves every other slot unchanged; in
particular the header/trailer slots 0, 1 and 182 written by `setupDcf` are
never touched. -/
theorem claim10_frame_effect (off : Int) (t : Tm) (arr arr2 : Int → Int)
    (hoff : off = 2 ∨ off = 62 ∨ off = 122) :
    (∀ j, j < off ∨ off + 60 ≤ j → calculateArray off t arr j = arr j) ∧
    (∀ j, off ≤ j → j < off + 60 →
      calculateArray off t arr j = calculateArray off t arr2 j) ∧
    calculateArray off t arr 0 = arr 0 ∧ calculateArray off t arr 1 = arr 1 ∧
    calculateArray off t arr 182 = arr 182 :=
  ⟨fun j h => calc_out off t arr j h,
   fun j h1 h2 => calc_indep off t arr arr2 j h1 h2,
   calc_out off t arr 0 (by omega), calc_out off t arr 1 (by omega),
   calc_out off t arr 182 (by omega)⟩

/-- C5: a composition cycle whose corrected read has second-of-minute at
most 56 builds the full 183-slot buffer - every slot's value is determined
by the snapshot alone, and slots 0, 1, 182 carry the fixed header/trailer
pattern Short, None, Short set by `setupDcf` - and is reported active,
while a read with second-of-minute 57-59 is skipped: the result is `none`
and the buffer is returned untouched, so no partial buffer is exposed. -/
theorem claim5_compose_or_skip (c : Int) (t0 u0 : Tm) (a b : Int → Int)
    (hgo : (mkTimeNorm { t0 with tm_sec := t0.tm_sec + c }).tm_sec ≤ 56)
    (hskip : 57 ≤ (mkTimeNorm { u0 with tm_sec := u0.tm_sec + c }).tm_sec) :
    ((readAndDecodeTime c t0 (setupDcf a)).2.isSome = true ∧
     (readAndDecodeTime c t0 (setupDcf a)).1 0 = 1 ∧
     (readAndDecodeTime c t0 (setupDcf a)).1 1 = 0 ∧
     (readAndDecodeTime c t0 (setupDcf a)).1 182 = 1 ∧
     (∀ j, 0 ≤ j → j ≤ 182 → (readAndDecodeTime c t0 (setupDcf a)).1 j =
        (readAndDecodeTime c t0 (setupDcf b)).1 j)) ∧
    ((readAndDecodeTime c u0 a).2 = none ∧ (readAndDecodeTime c u0 a).1 = a) := by
  constructor
  · simp only [readAndDecodeTime, FirstMinutePulseBegin, SecondMinutePulseBegin,
      ThirdMinutePulseBegin]
    rw [if_neg (show ¬ (mkTimeNorm { t0 with tm_sec := t0.tm_sec + c }).tm_sec > 56
      by omega),
      if_neg (show ¬ (mkTimeNorm { t0 with tm_sec := t0.tm_sec + c }).tm_sec > 56
      by omega)]
    dsimp only
    refine ⟨rfl, ?_, ?_, ?_, ?_⟩
    · rw [calc_out 122 _ _ 0 (by omega), calc_out 62 _ _ 0 (by omega),
        calc_out 2 _ _ 0 (by omega), setupDcf_at0]
    · rw [calc_out 122 _ _ 1 (by omega), calc_out 62 _ _ 1 (by omega),
        calc_out 2 _ _ 1 (by omega), setupDcf_at1]
    · rw [calc_out 122 _ _ 182 (by omega), calc_out 62 _ _ 182 (by omega),
        calc_out 2 _ _ 182 (by omega), setupDcf_at182]
    · intro j hj0 hj1
      rcases (by omega : j = 0 ∨ j = 1 ∨ (2 ≤ j ∧ j < 62) ∨ (62 ≤ j ∧ j < 122) ∨
          (122 ≤ j ∧ j < 182) ∨ j = 182) with hc | hc | hc | hc | hc | hc
      · rw [hc, calc_out 122 _ _ 0 (by omega), calc_out 62 _ _ 0 (by omega),
          calc_out 2 _ _ 0 (by omega), setupDcf_at0,
          calc_out 122 _ _ 0 (by omega), calc_out 62 _ _ 0 (by omega),
          calc_out 2 _ _ 0 (by omega), setupDcf_at0]
      · rw [hc, calc_out 122 _ _ 1 (by omega), calc_out 62 _ _ 1 (by omega),
          calc_out 2 _ _ 1 (by omega), setupDcf_at1,
          calc_out 122 _ _ 1 (by omega), calc_out 62 _ _ 1 (by omega),
          calc_out 2 _ _ 1 (by omega), setupDcf_at1]
      · rw [calc_out 122 _ _ j (by omega), calc_out 62 _ _ j (by omega),
          calc_out 122 _ _ j (by omega), calc_out 62 _ _ j (by omega)]
        exact calc_indep 2 _ _ _ j (by omega) (by omega)
      · rw [calc_out 122 _ _ j (by omega), calc_out 122 _ _ j (by omega)]
        exact calc_indep 62 _ _ _ j (by omega) (by omega)
      · exact calc_indep 122 _ _ _ j (by omega) (by omega)
      · rw [hc, calc_out 122 _ _ 182 (by omega), calc_out 62 _ _ 182 (by omega),
          calc_out 2 _ _ 182 (by omega), setupDcf_at182,
          calc_out 122 _ _ 182 (by omega), calc_out 62 _ _ 182 (by omega),
          calc_out 2 _ _ 182 (by omega), setupDcf_at182]
  · simp only [readAndDecodeTime, FirstMinutePulseBegin, SecondMinutePulseBegin,
      ThirdMinutePulseBegin]
    rw [if_pos (show (mkTimeNorm { u0 with tm_sec := u0.tm_sec + c }).tm_sec > 56
      by omega)]
    exact ⟨rfl, rfl⟩

/-- Witness for C5 with correction offset 0, a go-read at second 10 and a
skip-read at second 58. -/
theorem claim5_compose_or_skip_witness :
    ((mkTimeNorm { Tm.mk 10 30 12 15 6 2024 2 0 with
        tm_sec := (Tm.mk 10 30 12 15 6 2024 2 0).tm_sec + 0 }).tm_sec ≤ 56) ∧
    ((readAndDecodeTime 0 (Tm.mk 10 30 12 15 6 2024 2 0)
        (setupDcf (fun _ => 7))).1 0 = 1) ∧
    ((readAndDecodeTime 0 (Tm.mk 58 30 12 15 6 2024 2 0) (fun _ => 7)).2 = none) := by
  refine ⟨by decide, ?_, ?_⟩
  · exact (claim5_compose_or_skip 0 (Tm.mk 10 30 12 15 6 2024 2 0)
      (Tm.mk 58 30 12 15 6 2024 2 0) (fun _ => 7) (fun _ => 9)
      (by decide) (by decide)).1.2.1
  · exact (claim5_compose_or_skip 0 (Tm.mk 10 30 12 15 6 2024 2 0)
      (Tm.mk 58 30 12 15 6 2024 2 0) (fun _ => 7) (fun _ => 9)
      (by decide) (by decide)).2.1

/-- C6: in every non-skipped composition the alignment delay slept before
activating transmission equals 58 minus the second-of-minute of the
original corrected read - even though the code computes `58 - tm_sec` only
after advancing the time by two minutes, because `mktime` re-normalization
leaves the seconds field unchanged when minutes are added. -/
theorem claim6_alignment_delay (c : Int) (t0 : Tm) (arr : Int → Int)
    (h : (mkTimeNorm { t0 with tm_sec := t0.tm_sec + c }).tm_sec ≤ 56) :
    (readAndDecodeTime c t0 arr).2 =
      some (58 - (mkTimeNorm { t0 with tm_sec := t0.tm_sec + c }).tm_sec) := by
  simp only [readAndDecodeTime, FirstMinutePulseBegin, SecondMinutePulseBegin,
    ThirdMinutePulseBegin]
  rw [if_neg (show ¬ (mkTimeNorm { t0 with tm_sec := t0.tm_sec + c }).tm_sec > 56
    by omega)]
  dsimp only
  congr 1
  have e : ∀ u : Tm, (mkTimeNorm u).tm_sec = u.tm_sec % 60 := fun u => rfl
  simp only [e]
  omega

/-- Witness for C6: a read at second 13 with correction offset 0 yields the
alignment delay 58 - 13 = 45. -/
theorem claim6_alignment_delay_witness :
    ((mkTimeNorm { Tm.mk 13 30 12 15 6 2024 2 0 with
        tm_sec := (Tm.mk 13 30 12 15 6 2024 2 0).tm_sec + 0 }).tm_sec ≤ 56) ∧
    (readAndDecodeTime 0 (Tm.mk 13 30 12 15 6 2024 2 0) (fun _ => 7)).2 =
      some (58 - (mkTimeNorm { Tm.mk 13 30 12 15 6 2024 2 0 with
        tm_sec := (Tm.mk 13 30 12 15 6 2024 2 0).tm_sec + 0 }).tm_sec) :=
  ⟨by decide, claim6_alignment_delay 0 (Tm.mk 13 30 12 15 6 2024 2 0)
    (fun _ => 7) (by decide)⟩

/-- C7: in a non-skipped composition the three frames at offsets 2, 62 and
122 encode three calendar-consecutive minutes - the decoded minute of frame
2 is the first frame's plus 1 mod 60 and frame 3's is plus 2 mod 60 - and
the snapshots used for frames 2 and 3 are the correctly re-normalized
calendar increments (minute 59 rolls to 0 with the hour, day, month and
year rolling over as needed). -/
theorem claim7_consecutive_minutes (t0 : Tm) (arr : Int → Int) (h1 : inRange t0)
    (hs : t0.tm_sec ≤ 56) :
    bcdDecode (sliceVal (readAndDecodeTime 0 t0 arr).1 (21 + 2) 7) = t0.tm_min ∧
    bcdDecode (sliceVal (readAndDecodeTime 0 t0 arr).1 (21 + 62) 7) =
      (t0.tm_min + 1) % 60 ∧
    bcdDecode (sliceVal (readAndDecodeTime 0 t0 arr).1 (21 + 122) 7) =
      (t0.tm_min + 2) % 60 ∧
    mkTimeNorm { t0 with tm_min := t0.tm_min + 1 } = addOneMinuteSpec t0 ∧
    mkTimeNorm { addOneMinuteSpec t0 with
        tm_min := (addOneMinuteSpec t0).tm_min + 1 } =
      addOneMinuteSpec (addOneMinuteSpec t0) := by
  have h2 : inRange (addOneMinuteSpec t0) := inRange_addOne t0 h1
  have ht1 : mkTimeNorm { t0 with tm_sec := t0.tm_sec + 0 } = t0 := by
    rw [show { t0 with tm_sec := t0.tm_sec + 0 } = t0 by rw [add_zero]]
    exact mkTimeNorm_inRange t0 h1
  have e1 : mkTimeNorm { t0 with tm_min := t0.tm_min + 1 } = addOneMinuteSpec t0 :=
    addOneMinute_eq t0 h1
  have e2 : mkTimeNorm { addOneMinuteSpec t0 with
      tm_min := (addOneMinuteSpec t0).tm_min + 1 } =
      addOneMinuteSpec (addOneMinuteSpec t0) := addOneMinute_eq _ h2
  obtain ⟨g1, g2, g3, g4, g5, g6, g7, g8, g9, g10⟩ := h1
  refine ⟨?_, ?_, ?_, e1, e2⟩
  · simp only [readAndDecodeTime, FirstMinutePulseBegin, SecondMinutePulseBegin,
      ThirdMinutePulseBegin]
    rw [ht1, if_neg (show ¬ t0.tm_sec > 56 by omega)]
    dsimp only
    rw [sliceVal_calc_out 122 _ _ (21 + 2) 7 (by omega),
      sliceVal_calc_out 62 _ _ (21 + 2) 7 (by omega), calc_minField 2 t0 arr]
    have e : ∀ X : Int, lowBits 7 X =
        X % 2 + 2 * (X/2 % 2 + 2 * (X/2/2 % 2 + 2 * (X/2/2/2 % 2 +
          2 * (X/2/2/2/2 % 2 + 2 * (X/2/2/2/2/2 % 2 +
            2 * (X/2/2/2/2/2/2 % 2 + 2 * 0)))))) := fun X => rfl
    rw [e]
    unfold bcdDecode bin2Bcd
    split_ifs with hm
    · omega
    · omega
  · simp only [readAndDecodeTime, FirstMinutePulseBegin, SecondMinutePulseBegin,
      ThirdMinutePulseBegin]
    rw [ht1, if_neg (show ¬ t0.tm_sec > 56 by omega)]
    dsimp only
    rw [e1, e2]
    rw [sliceVal_calc_out 122 _ _ (21 + 62) 7 (by omega),
      calc_minField 62 (addOneMinuteSpec t0) _]
    rw [addOneMinuteSpec_min t0 ⟨g1, g2, g3, g4, g5, g6, g7, g8, g9, g10⟩]
    have e : ∀ X : Int, lowBits 7 X =
        X % 2 + 2 * (X/2 % 2 + 2 * (X/2/2 % 2 + 2 * (X/2/2/2 % 2 +
          2 * (X/2/2/2/2 % 2 + 2 * (X/2/2/2/2/2 % 2 +
            2 * (X/2/2/2/2/2/2 % 2 + 2 * 0)))))) := fun X => rfl
    rw [e]
    unfold bcdDecode bin2Bcd
    split_ifs with hm
    · omega
    · omega
  · simp only [readAndDecodeTime, FirstMinutePulseBegin, SecondMinutePulseBegin,
      ThirdMinutePulseBegin]
    rw [ht1, if_neg (show ¬ t0.tm_sec > 56 by omega)]
    dsimp only
    rw [e1, e2]
    rw [calc_minField 122 (addOneMinuteSpec (addOneMinuteSpec t0)) _]
    rw [addOneMinuteSpec_min (addOneMinuteSpec t0) h2]
    rw [addOneMinuteSpec_min t0 ⟨g1, g2, g3, g4, g5, g6, g7, g8, g9, g10⟩]
    have e : ∀ X : Int, lowBits 7 X =
        X % 2 + 2 * (X/2 % 2 + 2 * (X/2/2 % 2 + 2 * (X/2/2/2 % 2 +
          2 * (X/2/2/2/2 % 2 + 2 * (X/2/2/2/2/2 % 2 +
            2 * (X/2/2/2/2/2/2 % 2 + 2 * 0)))))) := fun X => rfl
    rw [e]
    unfold bcdDecode bin2Bcd
    split_ifs with hm
    · omega
    · omega

/-- Witness for C7 at 2024-12-31 23:59:30, where all of minute, hour, day,
month and year roll over between the first and second frame. -/
theorem claim7_consecutive_minutes_witness :
    inRange (Tm.mk 30 59 23 31 12 2024 2 0) ∧
    (Tm.mk 30 59 23 31 12 2024 2 0).tm_sec ≤ 56 ∧
    bcdDecode (sliceVal (readAndDecodeTime 0 (Tm.mk 30 59 23 31 12 2024 2 0)
      (fun _ => 7)).1 (21 + 62) 7) =
      ((Tm.mk 30 59 23 31 12 2024 2 0).tm_min + 1) % 60 ∧
    mkTimeNorm { Tm.mk 30 59 23 31 12 2024 2 0 with
        tm_min := (Tm.mk 30 59 23 31 12 2024 2 0).tm_min + 1 } =
      addOneMinuteSpec (Tm.mk 30 59 23 31 12 2024 2 0) :=
  ⟨by decide, by decide,
    (claim7_consecutive_minutes (Tm.mk 30 59 23 31 12 2024 2 0) (fun _ => 7)
      (by decide) (by decide)).2.1,
    (claim7_consecutive_minutes (Tm.mk 30 59 23 31 12 2024 2 0) (fun _ => 7)
      (by decide) (by decide)).2.2.2.1⟩

/-- Witness for C10 at offset 62. -/
theorem claim10_frame_effect_witness :
    ((62 : Int) = 2 ∨ (62 : Int) = 62 ∨ (62 : Int) = 122) ∧
    calculateArray 62 (Tm.mk 10 30 5 24 12 2024 3 0) (fun _ => 7) 0 = 7 ∧
    calculateArray 62 (Tm.mk 10 30 5 24 12 2024 3 0) (fun _ => 7) 80 =
      calculateArray 62 (Tm.mk 10 30 5 24 12 2024 3 0) (fun _ => 9) 80 :=
  ⟨by decide,
   (claim10_frame_effect 62 (Tm.mk 10 30 5 24 12 2024 3 0) (fun _ => 7)
      (fun _ => 9) (by decide)).2.2.1,
   (claim10_frame_effect 62 (Tm.mk 10 30 5 24 12 2024 3 0) (fun _ => 7)
      (fun _ => 9) (by decide)).2.1 80 (by decide) (by decide)⟩

end DCF77
